import Mathlib

/-!
Verification of the NLP hybrid query engine against its specification.

The development shallowly embeds the engine's core: keyword-based schema
classification and relationship inference (`backend/services/schema_discovery.py`),
the rule-based natural-language-to-SQL compiler, the TTL/LRU-by-insertion
result cache, pagination, and the `process_query` fusion pipeline of the
application engine (`backend/main.py`).  Machine time is modelled as `Nat`
ticks passed explicitly; rows and document hits are opaque string-keyed
records, since no verified property computes with their payloads.
-/

/-- Python's `str.lower()` (ASCII case folding, which covers every
identifier and question the engine handles). -/
def pyLower (s : String) : String :=
  String.mk (s.data.map Char.toLower)

/-- Python's `str.endswith(t)`. -/
def pyEndsWith (s t : String) : Bool :=
  t.data.isSuffixOf s.data

/-- Python's `needle in hay` substring test on strings. -/
def substrB (needle hay : String) : Bool :=
  hay.toList.tails.any (fun t => needle.toList.isPrefixOf t)

/-- `SchemaDiscovery._estimate_column_purpose` (backend/services/schema_discovery.py,
lines 123-142): chained substring checks on the lowercased column name. -/
def estimateColumnPurpose (columnName : String) : String :=
  let colLower := pyLower columnName
  if ["name", "full_name", "first", "last"].any (fun t => substrB t colLower) then
    "employee_name"
  else if ["id", "key", "code"].any (fun t => substrB t colLower) then
    "identifier"
  else if ["salary", "compensation", "pay", "wage"].any (fun t => substrB t colLower) then
    "compensation"
  else if ["date", "time", "year"].any (fun t => substrB t colLower) then
    "date_time"
  else if ["dept", "division", "team"].any (fun t => substrB t colLower) then
    "department"
  else if ["title", "position", "role"].any (fun t => substrB t colLower) then
    "job_title"
  else if ["email", "phone", "address"].any (fun t => substrB t colLower) then
    "contact_info"
  else
    "general"

/-- Generic first-match classification over a priority-ordered keyword table:
the first category one of whose keywords occurs as a substring of the
lowercased name wins; the default is returned when no category matches. -/
def firstMatch (table : List (String × List String)) (dflt : String) (name : String) : String :=
  match table with
  | [] => dflt
  | (cat, kws) :: rest =>
      if kws.any (fun t => substrB t (pyLower name)) then cat
      else firstMatch rest dflt name

/-- The priority-ordered category table stated by the spec for column purposes:
employee_name, then identifier, compensation, date_time, department,
job_title, contact_info; default `general`. -/
def columnPriorityTable : List (String × List String) :=
  [("employee_name", ["name", "full_name", "first", "last"]),
   ("identifier", ["id", "key", "code"]),
   ("compensation", ["salary", "compensation", "pay", "wage"]),
   ("date_time", ["date", "time", "year"]),
   ("department", ["dept", "division", "team"]),
   ("job_title", ["title", "position", "role"]),
   ("contact_info", ["email", "phone", "address"])]

/-- `SchemaDiscovery._estimate_table_purpose` (backend/main.py, lines 237-245). -/
def estimateTablePurpose (tableName : String) : String :=
  let tableLower := pyLower tableName
  if ["emp", "staff"].any (fun t => substrB t tableLower) then "employee_data"
  else if ["dept", "division"].any (fun t => substrB t tableLower) then "department_data"
  else "general_data"

/-- `QueryEngine._nlp_to_sql` (backend/main.py, lines 424-463): ordered
rule list on the lowercased question; the final branch is the bounded
listing fallback. -/
def nlpToSql (query : String) : String :=
  let queryLower := pyLower query
  if substrB "how many" queryLower && substrB "employee" queryLower then
    "SELECT COUNT(*) as employee_count FROM employees"
  else if substrB "average salary" queryLower then
    if substrB "department" queryLower then
      "\n                SELECT department, ROUND(AVG(salary), 2) as average_salary \n                FROM employees \n                GROUP BY department\n                "
    else
      "SELECT ROUND(AVG(salary), 2) as average_salary FROM employees"
  else if substrB "engineering" queryLower then
    "SELECT * FROM employees WHERE department = 'Engineering'"
  else if substrB "salary" queryLower && substrB "department" queryLower then
    "\n            SELECT department, ROUND(AVG(salary), 2) as avg_salary \n            FROM employees \n            GROUP BY department\n            ORDER BY avg_salary DESC\n            "
  else if substrB "highest paid" queryLower then
    "SELECT * FROM employees ORDER BY salary DESC LIMIT 5"
  else if substrB "recent" queryLower || substrB "new" queryLower then
    "SELECT * FROM employees ORDER BY hire_date DESC LIMIT 5"
  else if substrB "department" queryLower then
    "SELECT * FROM departments"
  else
    "SELECT * FROM employees LIMIT 10"

/-- Disjunction of the trigger predicates of `_nlp_to_sql`'s rules: true
exactly when some non-fallback rule matches the question. -/
def nlpRuleMatches (query : String) : Bool :=
  let queryLower := pyLower query
  (substrB "how many" queryLower && substrB "employee" queryLower) ||
  substrB "average salary" queryLower ||
  substrB "engineering" queryLower ||
  (substrB "salary" queryLower && substrB "department" queryLower) ||
  substrB "highest paid" queryLower ||
  substrB "recent" queryLower || substrB "new" queryLower ||
  substrB "department" queryLower

/-- A discovered column: name and primary-key flag, the fields relationship
inference reads (`backend/services/schema_discovery.py`). -/
structure Column where
  name : String
  primary_key : Bool
deriving DecidableEq

/-- A discovered table: name plus its ordered column list. -/
structure Table where
  name : String
  columns : List Column
deriving DecidableEq

/-- A discovered relationship record (`_discover_relationships`). -/
structure Relationship where
  from_table : String
  from_column : String
  to_table : String
  to_column : String
  type : String
deriving DecidableEq

/-- `SchemaDiscovery._find_primary_key` (schema_discovery.py, lines 205-215):
primary-key column, else the first column literally named `id`, else the
first column; `none` models the `IndexError` a table without columns raises. -/
def findPrimaryKey (t : Table) : Option String :=
  match t.columns.find? (fun c => c.primary_key) with
  | some c => some c.name
  | none =>
      match t.columns.find? (fun c => pyLower c.name == "id") with
      | some c => some c.name
      | none => (t.columns.head?).map (fun c => c.name)

/-- The name-inference half of `SchemaDiscovery._discover_relationships`
(schema_discovery.py, lines 186-202): a column whose lowercased name ends in
`_id` or `_code` points at the table whose lowercased name equals the column
name with its last three characters removed (`col_name[:-3]`). -/
def inferRelationships (tables : List Table) : List Relationship :=
  tables.flatMap (fun table =>
    table.columns.flatMap (fun column =>
      let colName := pyLower column.name
      if pyEndsWith colName "_id" || pyEndsWith colName "_code" then
        let possibleTable := colName.dropRight 3
        tables.filterMap (fun other =>
          if pyLower other.name == possibleTable then
            (findPrimaryKey other).map (fun pk =>
              { from_table := table.name, from_column := column.name,
                to_table := other.name, to_column := pk, type := "inferred" })
          else none)
      else []))

/-- One stored cache slot: the memoised value plus its creation instant
(`self.cache[key] = {'data': data, 'timestamp': datetime.now()}`). -/
structure CEntry (α : Type) where
  data : α
  timestamp : Nat
deriving DecidableEq

/-- Look a key up in an insertion-ordered dictionary. -/
def dictFind (c : List (String × β)) (k : String) : Option β :=
  (c.find? (fun p => p.1 == k)).map Prod.snd

/-- Delete a key from an insertion-ordered dictionary (`del cache[k]`). -/
def dictErase (c : List (String × β)) (k : String) : List (String × β) :=
  c.filter (fun p => p.1 != k)

/-- `cache[k] = v` on an insertion-ordered dictionary: overwrite in place
when the key exists, append otherwise. -/
def dictInsert (c : List (String × β)) (k : String) (v : β) : List (String × β) :=
  if c.any (fun p => p.1 == k) then
    c.map (fun p => if p.1 == k then (k, v) else p)
  else
    c ++ [(k, v)]

/-- Overwrite the `data` field of one entry, keeping its timestamp: the
effect of mutating the dictionary returned by a cache `get` in place. -/
def dictSetData (c : List (String × CEntry α)) (k : String) (d : α) :
    List (String × CEntry α) :=
  c.map (fun p => if p.1 == k then (p.1, { p.2 with data := d }) else p)

/-- `min(cache.keys(), key=lambda k: cache[k]['timestamp'])`: the first key
in insertion order whose timestamp is minimal; `none` models the
`ValueError` Python's `min` raises on an empty dictionary. -/
def oldestStep (b a : String × CEntry α) : String × CEntry α :=
  if a.2.timestamp < b.2.timestamp then a else b

/-- The key `min` selects, folding `oldestStep` over the entries. -/
def oldestKey (c : List (String × CEntry α)) : Option String :=
  match c with
  | [] => none
  | x :: xs => some ((xs.foldl oldestStep x).1)

/-- `QueryCache` (backend/main.py, lines 287-310): a bounded TTL memo. -/
structure QueryCache (α : Type) where
  cache : List (String × CEntry α)
  ttl : Nat
  max_size : Nat
deriving DecidableEq

/-- `QueryCache.get` at instant `now`: a fresh entry is returned untouched, an
expired one is deleted and treated as a miss (lines 293-300). -/
def QueryCache.get (qc : QueryCache α) (key : String) (now : Nat) :
    Option α × QueryCache α :=
  match dictFind qc.cache key with
  | some e =>
      if now - e.timestamp < qc.ttl then (some e.data, qc)
      else (none, { qc with cache := dictErase qc.cache key })
  | none => (none, qc)

/-- `QueryCache.set` at instant `now` (lines 302-310): when the cache already
holds `max_size` or more entries, first delete the key with the smallest
timestamp, then insert; `none` models the exception raised when eviction is
attempted on an empty dictionary (only reachable with `max_size = 0`). -/
def QueryCache.set (qc : QueryCache α) (key : String) (d : α) (now : Nat) :
    Option (QueryCache α) :=
  if qc.max_size ≤ qc.cache.length then
    match oldestKey qc.cache with
    | none => none
    | some ok =>
        some { qc with cache := dictInsert (dictErase qc.cache ok) key ⟨d, now⟩ }
  else
    some { qc with cache := dictInsert qc.cache key ⟨d, now⟩ }

/-- A structured row, as an opaque string-keyed record. -/
abbrev Row := List (String × String)

/-- A ranked document hit, as an opaque string-keyed record. -/
abbrev Doc := List (String × String)

/-- Python list slicing `l[start:stop]` with unit step: negative bounds count
from the end, bounds are clamped into range, and an empty slice is returned
when the effective stop precedes the effective start. -/
def pySlice (l : List α) (start stop : Int) : List α :=
  let n : Int := l.length
  let s : Int := if start < 0 then max 0 (n + start) else min start n
  let e : Int := if stop < 0 then max 0 (n + stop) else min stop n
  (l.drop s.toNat).take (e - s).toNat

/-- The pagination step of `QueryEngine.process_query` (backend/main.py,
lines 342-344): `start = max(0, (page - 1) * page_size)` and the slice
`sql_data_full[start : start + page_size]`. -/
def paginate (data : List α) (page pageSize : Int) : List α :=
  let start : Int := max 0 ((page - 1) * pageSize)
  pySlice data start (start + pageSize)

/-- The `results` dictionary assembled by `process_query` (lines 346-353). -/
structure Results where
  sql_data : List Row
  document_data : List Doc
  sql_count : Nat
  document_count : Nat
  total_count : Nat
  generated_sql : Option String
deriving DecidableEq

/-- The response dictionary returned by `process_query` (lines 362-369);
`response_time` is in abstract clock ticks. -/
structure Response where
  results : Results
  query_type : String
  response_time : Nat
  cache_hit : Bool
  sources : List String
  generated_sql : Option String
deriving DecidableEq

/-- One query-history record (lines 376-381). -/
structure HistoryRecord where
  query : String
  timestamp : Nat
  response_time : Nat
  type : String
deriving DecidableEq

/-- The outcome `_process_sql_query` hands back for a question: the (already
executed) row list and the generated SQL text; the executed rows depend on
external database state, so the pipeline is a parameter of the model. -/
structure SqlResult where
  data : List Row
  generated_sql : Option String

/-- The two sub-pipelines of the fuser, abstracted as functions of the
question: `sqlFor` models `_process_sql_query` and `docFor` models
`_process_document_query` for a fixed external database/corpus state. -/
structure PipelineEnv where
  sqlFor : String → SqlResult
  docFor : String → List Doc

/-- `QueryEngine`'s mutable state: its result cache and query history. -/
structure EngineState where
  cache : QueryCache Response
  query_history : List HistoryRecord
deriving DecidableEq

/-- A fresh engine: `QueryCache(ttl_seconds=300, max_size=100)` and an empty
history (backend/main.py, lines 288, 312-317). -/
def EngineState.init : EngineState :=
  { cache := { cache := [], ttl := 300, max_size := 100 }, query_history := [] }

/-- `QueryEngine.process_query` (backend/main.py, lines 319-394).  `tStart` is
`start_time`; `tEnd` stands for the later `time.time()`/`datetime.now()`
readings.  The cache key, an md5 fingerprint of the question in the source, is
modelled by the question text itself.  On a hit the returned dictionary *is*
the stored one, so the in-place `response_time` update also rewrites the
cached entry (`dictSetData`).  On a miss both pipelines always run; the
`set` fallback to the unchanged cache covers only the `max_size = 0` eviction
failure, unreachable for engines built by `EngineState.init`. -/
def processQuery (env : PipelineEnv) (st : EngineState) (q : String)
    (useCache : Bool) (page pageSize : Int) (tStart tEnd : Nat) :
    Response × EngineState :=
  let cacheKey := q
  let getRes := if useCache then st.cache.get cacheKey tStart else (none, st.cache)
  match getRes with
  | (some cached, cacheAfterGet) =>
      let updated := { cached with response_time := tEnd - tStart }
      ( updated,
        { st with cache := { cacheAfterGet with
            cache := dictSetData cacheAfterGet.cache cacheKey updated } } )
  | (none, cacheAfterGet) =>
      let sqlRes := env.sqlFor q
      let docData := env.docFor q
      let sqlDataFull := sqlRes.data
      let totalSql := sqlDataFull.length
      let sqlDataPage := paginate sqlDataFull page pageSize
      let results : Results :=
        { sql_data := sqlDataPage
          document_data := docData
          sql_count := totalSql
          document_count := docData.length
          total_count := totalSql + docData.length
          generated_sql := sqlRes.generated_sql }
      let sources :=
        (if totalSql ≠ 0 then ["database"] else []) ++
        (if results.document_count ≠ 0 then ["documents"] else [])
      let queryType :=
        if sources.length = 2 then "hybrid"
        else if sources.contains "database" then "sql" else "document"
      let responseData : Response :=
        { results := results
          query_type := queryType
          response_time := tEnd - tStart
          cache_hit := false
          sources := sources
          generated_sql := results.generated_sql }
      let newCache :=
        if useCache then (cacheAfterGet.set cacheKey responseData tEnd).getD cacheAfterGet
        else cacheAfterGet
      let newHistory := st.query_history ++
        [{ query := q, timestamp := tEnd, response_time := responseData.response_time,
           type := queryType }]
      (responseData, { cache := newCache, query_history := newHistory })

/-- Process a sequence of questions with caching disabled (each call takes the
miss path), at a fixed instant: the fold the history claims quantify over. -/
def processMany (env : PipelineEnv) (st : EngineState) (qs : List String) : EngineState :=
  match qs with
  | [] => st
  | q :: rest => processMany env (processQuery env st q false 1 25 0 0).2 rest

/-- A sample pipeline outcome: one structured row, no document hits. -/
def sampleEnv : PipelineEnv :=
  { sqlFor := fun _ =>
      { data := [[("name", "Aarav Sharma")]],
        generated_sql := some "SELECT * FROM employees LIMIT 10" },
    docFor := fun _ => [] }

/-- Python slicing at natural-number bounds is take-after-drop. -/
theorem pySlice_natCast (l : List α) (a b : Nat) :
    pySlice l (a : Int) (b : Int) = (l.drop a).take (b - a) := by
  unfold pySlice
  have h0 : ¬ ((a : Int) < 0) := by omega
  have h1 : ¬ ((b : Int) < 0) := by omega
  simp only [if_neg h0, if_neg h1]
  have hs : (min (a : Int) (l.length : Int)).toNat = min a l.length := by omega
  have he : ((min (b : Int) (l.length : Int)) - min (a : Int) (l.length : Int)).toNat
      = min b l.length - min a l.length := by omega
  rw [hs, he]
  by_cases hle : a ≤ l.length
  · rw [Nat.min_eq_left hle]
    rw [List.take_eq_take]
    have hdl : (l.drop a).length = l.length - a := List.length_drop a l
    rw [hdl]
    omega
  · have hla : l.length ≤ a := by omega
    rw [Nat.min_eq_right hla, List.drop_length, List.drop_eq_nil_iff.mpr hla]
    simp

/-- `paginate` at page `i + 1` with natural page size `P` slices rows
`[i*P, i*P + P)`. -/
theorem paginate_natCast (l : List α) (i P : Nat) :
    paginate l ((i + 1 : Nat) : Int) ((P : Nat) : Int) = (l.drop (i * P)).take P := by
  unfold paginate
  have h1 : ((i + 1 : Nat) : Int) - 1 = (i : Int) := by push_cast; ring
  have h2 : (i : Int) * (P : Int) = ((i * P : Nat) : Int) := by push_cast; ring
  have h3 : max 0 ((i * P : Nat) : Int) = ((i * P : Nat) : Int) := by omega
  rw [h1, h2, h3]
  show pySlice l ((i * P : Nat) : Int) (((i * P : Nat) : Int) + (P : Int))
      = List.take P (List.drop (i * P) l)
  have h4 : ((i * P : Nat) : Int) + (P : Int) = ((i * P + P : Nat) : Int) := by push_cast; ring
  rw [h4, pySlice_natCast]
  congr 1
  omega

/-- Concatenating the first `k` pages of size `P` yields the first `k * P`
elements. -/
theorem paginate_flatten_take (l : List α) (P : Nat) :
    ∀ k : Nat, ((List.range k).map (fun i => (l.drop (i * P)).take P)).flatten
      = l.take (k * P) := by
  intro k
  induction k with
  | zero => simp
  | succ k ih =>
      rw [List.range_succ, List.map_append, List.flatten_append, ih]
      simp only [List.map_cons, List.map_nil, List.flatten_cons, List.flatten_nil,
        List.append_nil]
      rw [Nat.succ_mul, List.take_add]

/-- The ceiling quotient bounds the total: `N ≤ ((N + P - 1) / P) * P`. -/
theorem ceil_mul_ge (N P : Nat) (hP : 1 ≤ P) : N ≤ ((N + P - 1) / P) * P := by
  have hd := Nat.div_add_mod (N + P - 1) P
  have hm : (N + P - 1) % P < P := Nat.mod_lt _ (by omega)
  rw [Nat.mul_comm]
  generalize hx : P * ((N + P - 1) / P) = x at hd ⊢
  omega

/-- Claim C4: for every structured result set of size `N` and page size
`P ≥ 1`, the slices of pages `1 .. ceil(N/P)` concatenate to the full set in
order (hence no duplicates or omissions), and any later page is empty. -/
theorem c4_pagination_partition (data : List Row) (P : Nat) (hP : 1 ≤ P) :
    ((List.range ((data.length + P - 1) / P)).map
        (fun i => paginate data ((i + 1 : Nat) : Int) ((P : Nat) : Int))).flatten = data
    ∧ ∀ page : Nat, (data.length + P - 1) / P < page →
        paginate data ((page : Nat) : Int) ((P : Nat) : Int) = [] := by
  constructor
  · simp only [paginate_natCast]
    rw [paginate_flatten_take]
    exact List.take_of_length_le (ceil_mul_ge data.length P hP)
  · intro page hpage
    have hceil := ceil_mul_ge data.length P hP
    generalize hq0 : (data.length + P - 1) / P = q at hpage hceil
    have hp1 : page - 1 + 1 = page := by omega
    rw [← hp1, paginate_natCast]
    have hdrop : data.length ≤ (page - 1) * P := by
      have h2 : q * P ≤ (page - 1) * P := Nat.mul_le_mul_right P (by omega)
      omega
    rw [List.drop_eq_nil_iff.mpr hdrop]
    simp

/-- Witness for C4 at a five-row result set and page size two. -/
theorem c4_pagination_partition_witness :
    1 ≤ 2 ∧
    (((List.range (([[("r", "1")], [("r", "2")], [("r", "3")], [("r", "4")],
          [("r", "5")]].length + 2 - 1) / 2)).map
        (fun i => paginate [[("r", "1")], [("r", "2")], [("r", "3")], [("r", "4")],
          [("r", "5")]] ((i + 1 : Nat) : Int) ((2 : Nat) : Int))).flatten
      = [[("r", "1")], [("r", "2")], [("r", "3")], [("r", "4")], [("r", "5")]]
    ∧ ∀ page : Nat, (([[("r", "1")], [("r", "2")], [("r", "3")], [("r", "4")],
          [("r", "5")]].length + 2 - 1) / 2) < page →
        paginate [[("r", "1")], [("r", "2")], [("r", "3")], [("r", "4")],
          [("r", "5")]] ((page : Nat) : Int) ((2 : Nat) : Int) = []) :=
  ⟨by decide, c4_pagination_partition _ 2 (by decide)⟩

/-- With `page ≤ 1` the start offset clamps to `0`, so the slice is the
first `pageSize` rows. -/
theorem paginate_page_le_one (l : List α) (page pageSize : Int)
    (hpage : page ≤ 1) (hps : 1 ≤ pageSize) :
    paginate l page pageSize = l.take pageSize.toNat := by
  unfold paginate
  have hprod : (page - 1) * pageSize ≤ 0 := by nlinarith
  have hmax : max 0 ((page - 1) * pageSize) = 0 := by omega
  rw [hmax]
  unfold pySlice
  have h0 : ¬ ((0 : Int) < 0) := by omega
  have hps0 : ¬ (0 + pageSize < 0) := by omega
  simp only [if_neg h0, if_neg hps0]
  have hs : (min (0 : Int) (l.length : Int)).toNat = 0 := by omega
  have he : ((min (0 + pageSize) (l.length : Int)) - min (0 : Int) (l.length : Int)).toNat
      = min pageSize.toNat l.length := by omega
  rw [hs, he, List.drop_zero, List.take_eq_take]
  omega

/-- Claim C10: for `page ≤ 1` and `page_size ≥ 1`, `process_query` behaves
exactly as for `page = 1`: the start offset is clamped to `0` and the
structured slice is rows `[0, page_size)`. -/
theorem c10_low_pages_clamped (env : PipelineEnv) (st : EngineState) (q : String)
    (page pageSize : Int) (tS tE : Nat) (hpage : page ≤ 1) (hps : 1 ≤ pageSize) :
    processQuery env st q false page pageSize tS tE
      = processQuery env st q false 1 pageSize tS tE
    ∧ (processQuery env st q false page pageSize tS tE).1.results.sql_data
      = (env.sqlFor q).data.take pageSize.toNat := by
  have h1 := paginate_page_le_one (env.sqlFor q).data page pageSize hpage hps
  have h2 := paginate_page_le_one (env.sqlFor q).data 1 pageSize (by omega) hps
  constructor
  · simp only [processQuery, h1, h2]
  · exact h1

/-- Witness for C10: page `0` coincides with page `1` at size `25`. -/
theorem c10_low_pages_clamped_witness :
    (0 : Int) ≤ 1 ∧ (1 : Int) ≤ 25 ∧
    (processQuery sampleEnv EngineState.init "list employees" false 0 25 0 1
        = processQuery sampleEnv EngineState.init "list employees" false 1 25 0 1
      ∧ (processQuery sampleEnv EngineState.init "list employees" false 0 25 0 1).1.results.sql_data
        = (sampleEnv.sqlFor "list employees").data.take (25 : Int).toNat) :=
  ⟨by decide, by decide,
    c10_low_pages_clamped sampleEnv EngineState.init "list employees" 0 25 0 1
      (by decide) (by decide)⟩

/-- Claim C7: column-purpose classification is exactly first-match over the
priority-ordered keyword table (employee_name, identifier, compensation,
date_time, department, job_title, contact_info, default general); the name
`pay_id` shows the order deciding between two matching categories. -/
theorem c7_column_priority_first_match :
    (∀ name : String,
        estimateColumnPurpose name = firstMatch columnPriorityTable "general" name)
    ∧ estimateColumnPurpose "pay_id" = "identifier"
    ∧ substrB "pay" "pay_id" = true :=
  ⟨fun _ => rfl, rfl, rfl⟩

/-- Claim C5: the running engine's compiler is total — whenever no rule
matches, it returns the bounded listing `SELECT * FROM employees LIMIT 10`,
and `employees` is indeed the table classified as employee data. -/
theorem c5_compiler_total_fallback :
    (∀ q : String, nlpRuleMatches q = false →
        nlpToSql q = "SELECT * FROM employees LIMIT 10")
    ∧ estimateTablePurpose "employees" = "employee_data" := by
  constructor
  · intro q h
    unfold nlpRuleMatches at h
    simp only [Bool.or_eq_false_iff] at h
    obtain ⟨⟨⟨⟨⟨⟨⟨h1, h2⟩, h3⟩, h4⟩, h5⟩, h6a⟩, h6b⟩, h7⟩ := h
    simp [nlpToSql, h1, h2, h3, h4, h5, h6a, h6b, h7]
  · rfl

/-- Witness for C5: the nonsense question `xyz` matches no rule and compiles
to the fallback listing. -/
theorem c5_compiler_total_fallback_witness :
    nlpRuleMatches "xyz" = false
    ∧ nlpToSql "xyz" = "SELECT * FROM employees LIMIT 10" :=
  ⟨rfl, c5_compiler_total_fallback.1 "xyz" rfl⟩

/-- A table literally named `department` with primary key `id`. -/
def deptTable : Table :=
  { name := "department", columns := [{ name := "id", primary_key := true }] }

/-- A table whose `department_code` column should, per the spec, point at
`department`. -/
def ordersCodeTable : Table :=
  { name := "orders",
    columns := [{ name := "order_ref", primary_key := true },
                { name := "department_code", primary_key := false }] }

/-- The `_id` analogue of `ordersCodeTable`. -/
def ordersIdTable : Table :=
  { name := "orders",
    columns := [{ name := "order_ref", primary_key := true },
                { name := "department_id", primary_key := false }] }

/-- Claim C6 (code bug): `_discover_relationships` strips three characters
from every matching column name (`col_name[:-3]`), which is correct for
`_id` but leaves `department_c` for `department_code`, so the `_code` case
never finds the table the claim (and the spec) require: the same schema
yields the expected inferred relationship for `department_id` and nothing at
all for `department_code`. -/
theorem c6_code_suffix_inference_mismatch :
    inferRelationships [deptTable, ordersCodeTable] = []
    ∧ inferRelationships [deptTable, ordersIdTable] =
        [{ from_table := "orders", from_column := "department_id",
           to_table := "department", to_column := "id", type := "inferred" }] :=
  ⟨rfl, rfl⟩

/-- The `oldestStep` fold computes an element (or the seed) whose timestamp
is a lower bound for the seed and every listed entry. -/
theorem foldl_oldestStep_spec (xs : List (String × CEntry α)) :
    ∀ acc : String × CEntry α,
      (xs.foldl oldestStep acc = acc ∨ xs.foldl oldestStep acc ∈ xs)
      ∧ (xs.foldl oldestStep acc).2.timestamp ≤ acc.2.timestamp
      ∧ ∀ a ∈ xs, (xs.foldl oldestStep acc).2.timestamp ≤ a.2.timestamp := by
  induction xs with
  | nil =>
      intro acc
      refine ⟨Or.inl rfl, le_refl _, ?_⟩
      intro a ha
      cases ha
  | cons x xs ih =>
      intro acc
      obtain ⟨hmem, hle, hall⟩ := ih (oldestStep acc x)
      have hstep1 : (oldestStep acc x).2.timestamp ≤ acc.2.timestamp := by
        unfold oldestStep
        split <;> omega
      have hstep2 : (oldestStep acc x).2.timestamp ≤ x.2.timestamp := by
        unfold oldestStep
        split <;> omega
      refine ⟨?_, ?_, ?_⟩
      · rcases hmem with h | h
        · by_cases hx : x.2.timestamp < acc.2.timestamp
          · right
            rw [List.foldl_cons, h]
            unfold oldestStep
            simp [hx]
          · left
            rw [List.foldl_cons, h]
            unfold oldestStep
            simp [hx]
        · right
          rw [List.foldl_cons]
          exact List.mem_cons_of_mem x h
      · rw [List.foldl_cons]
        exact le_trans hle hstep1
      · intro a ha
        rw [List.foldl_cons]
        rcases List.mem_cons.mp ha with rfl | ha'
        · exact le_trans hle hstep2
        · exact hall a ha'

/-- On a nonempty cache, `oldestKey` names an entry of globally minimal
timestamp. -/
theorem oldestKey_spec (c : List (String × CEntry α)) (hne : c ≠ []) :
    ∃ p, oldestKey c = some p.1 ∧ p ∈ c ∧
      ∀ a ∈ c, p.2.timestamp ≤ a.2.timestamp := by
  match c with
  | [] => exact absurd rfl hne
  | x :: xs =>
      obtain ⟨hmem, hle, hall⟩ := foldl_oldestStep_spec xs x
      refine ⟨xs.foldl oldestStep x, rfl, ?_, ?_⟩
      · rcases hmem with h | h
        · rw [h]; exact List.mem_cons_self x xs
        · exact List.mem_cons_of_mem x h
      · intro a ha
        rcases List.mem_cons.mp ha with rfl | ha'
        · exact hle
        · exact hall a ha'

/-- Deleting a present key from a key-unique dictionary removes exactly one
entry. -/
theorem dictErase_length (c : List (String × β)) (k : String)
    (hnd : (c.map Prod.fst).Nodup) (hk : k ∈ c.map Prod.fst) :
    (dictErase c k).length + 1 = c.length := by
  induction c with
  | nil => cases hk
  | cons x xs ih =>
      rw [List.map_cons, List.nodup_cons] at hnd
      rw [List.map_cons, List.mem_cons] at hk
      by_cases hx : x.1 = k
      · have hxk : (x.1 != k) = false := by simp [hx]
        unfold dictErase
        rw [List.filter_cons, hxk]
        simp only [Bool.false_eq_true, if_false]
        have hrest : xs.filter (fun p => p.1 != k) = xs := by
          apply List.filter_eq_self.mpr
          intro a ha
          have hak : a.1 ≠ k := by
            intro hak
            apply hnd.1
            rw [hx, ← hak]
            exact List.mem_map_of_mem Prod.fst ha
          simp [hak]
        rw [hrest]
        simp
      · have hk' : k ∈ xs.map Prod.fst := by
          rcases hk with h | h
          · exact absurd h.symm hx
          · exact h
        have hxk : (x.1 != k) = true := by simp [hx]
        unfold dictErase
        rw [List.filter_cons, hxk]
        simp only [if_true]
        unfold dictErase at ih
        have := ih hnd.2 hk'
        simp only [List.length_cons]
        omega

/-- Inserting grows a dictionary by at most one entry. -/
theorem dictInsert_length_le (c : List (String × β)) (k : String) (v : β) :
    (dictInsert c k v).length ≤ c.length + 1 := by
  unfold dictInsert
  split
  · rw [List.length_map]
    omega
  · rw [List.length_append]
    simp

/-- Claim C3: a `set` keeps the cache within `max_size`, and on a full cache
first deletes exactly the (first-in-iteration-order) entry of globally
minimal creation timestamp, then inserts the new entry. -/
theorem c3_cache_bound_and_oldest_eviction {α : Type} (qc : QueryCache α)
    (key : String) (d : α) (now : Nat)
    (hnd : (qc.cache.map Prod.fst).Nodup)
    (hle : qc.cache.length ≤ qc.max_size) (hpos : 0 < qc.max_size) :
    ∃ qc', qc.set key d now = some qc'
      ∧ qc'.cache.length ≤ qc.max_size
      ∧ (qc.max_size ≤ qc.cache.length →
          ∃ p, p ∈ qc.cache ∧ (∀ a ∈ qc.cache, p.2.timestamp ≤ a.2.timestamp)
            ∧ oldestKey qc.cache = some p.1
            ∧ qc'.cache = dictInsert (dictErase qc.cache p.1) key ⟨d, now⟩) := by
  unfold QueryCache.set
  by_cases hfull : qc.max_size ≤ qc.cache.length
  · have hlen : qc.cache.length = qc.max_size := le_antisymm hle hfull
    have hne : qc.cache ≠ [] := by
      intro h
      rw [h] at hlen
      simp at hlen
      omega
    obtain ⟨p, hok, hmem, hall⟩ := oldestKey_spec qc.cache hne
    rw [if_pos hfull, hok]
    refine ⟨_, rfl, ?_, ?_⟩
    · dsimp only
      have hkey : p.1 ∈ qc.cache.map Prod.fst := List.mem_map_of_mem Prod.fst hmem
      have he := dictErase_length qc.cache p.1 hnd hkey
      have hi := dictInsert_length_le (dictErase qc.cache p.1) key ⟨d, now⟩
      omega
    · intro _
      exact ⟨p, hmem, hall, rfl, rfl⟩
  · rw [if_neg hfull]
    refine ⟨_, rfl, ?_, ?_⟩
    · dsimp only
      have hi := dictInsert_length_le qc.cache key ⟨d, now⟩
      omega
    · intro h
      exact absurd h hfull

/-- Witness for C3 at a full two-entry cache whose second entry is oldest. -/
theorem c3_cache_bound_and_oldest_eviction_witness :
    (((⟨[("a", ⟨10, 5⟩), ("b", ⟨20, 3⟩)], 300, 2⟩ : QueryCache Nat)).cache.map
        Prod.fst).Nodup
    ∧ ((⟨[("a", ⟨10, 5⟩), ("b", ⟨20, 3⟩)], 300, 2⟩ : QueryCache Nat)).cache.length
        ≤ ((⟨[("a", ⟨10, 5⟩), ("b", ⟨20, 3⟩)], 300, 2⟩ : QueryCache Nat)).max_size
    ∧ 0 < ((⟨[("a", ⟨10, 5⟩), ("b", ⟨20, 3⟩)], 300, 2⟩ : QueryCache Nat)).max_size
    ∧ (∃ qc', ((⟨[("a", ⟨10, 5⟩), ("b", ⟨20, 3⟩)], 300, 2⟩ : QueryCache Nat)).set "c" 30 9
          = some qc'
        ∧ qc'.cache.length
            ≤ ((⟨[("a", ⟨10, 5⟩), ("b", ⟨20, 3⟩)], 300, 2⟩ : QueryCache Nat)).max_size
        ∧ (((⟨[("a", ⟨10, 5⟩), ("b", ⟨20, 3⟩)], 300, 2⟩ : QueryCache Nat)).max_size
              ≤ ((⟨[("a", ⟨10, 5⟩), ("b", ⟨20, 3⟩)], 300, 2⟩ : QueryCache Nat)).cache.length →
            ∃ p, p ∈ ((⟨[("a", ⟨10, 5⟩), ("b", ⟨20, 3⟩)], 300, 2⟩ : QueryCache Nat)).cache
              ∧ (∀ a ∈ ((⟨[("a", ⟨10, 5⟩), ("b", ⟨20, 3⟩)], 300, 2⟩ : QueryCache Nat)).cache,
                  p.2.timestamp ≤ a.2.timestamp)
              ∧ oldestKey ((⟨[("a", ⟨10, 5⟩), ("b", ⟨20, 3⟩)], 300, 2⟩ : QueryCache Nat)).cache
                  = some p.1
              ∧ qc'.cache = dictInsert
                  (dictErase ((⟨[("a", ⟨10, 5⟩), ("b", ⟨20, 3⟩)], 300, 2⟩ : QueryCache Nat)).cache p.1)
                  "c" ⟨30, 9⟩)) :=
  ⟨by decide, by decide, by decide,
    c3_cache_bound_and_oldest_eviction _ "c" 30 9 (by decide) (by decide) (by decide)⟩

/-- Rewriting one entry's stored value leaves every other key's lookup
unchanged. -/
theorem dictFind_dictSetData_ne (c : List (String × CEntry α)) (k k' : String)
    (d : α) (h : k' ≠ k) :
    dictFind (dictSetData c k d) k' = dictFind c k' := by
  induction c with
  | nil => rfl
  | cons x xs ih =>
      unfold dictFind dictSetData at ih ⊢
      rw [List.map_cons]
      by_cases hxk : x.1 = k
      · have hne' : ¬ x.1 = k' := fun hh => h (hh.symm.trans hxk)
        have hif : (if (x.1 == k) = true then (x.1, { x.2 with data := d }) else x)
            = (x.1, { x.2 with data := d }) := by
          simp [hxk]
        rw [hif, List.find?_cons_of_neg _ (by simpa using hne'),
          List.find?_cons_of_neg _ (by simpa using hne')]
        exact ih
      · have hif : (if (x.1 == k) = true then (x.1, { x.2 with data := d }) else x) = x := by
          simp [hxk]
        rw [hif]
        by_cases hx' : x.1 = k'
        · rw [List.find?_cons_of_pos _ (by simpa using hx'),
            List.find?_cons_of_pos _ (by simpa using hx')]
        · rw [List.find?_cons_of_neg _ (by simpa using hx'),
            List.find?_cons_of_neg _ (by simpa using hx')]
          exact ih

/-- Claim C9 (amended): a fresh cache hit returns the stored response with
`response_time` overwritten for this invocation, and — because the returned
dictionary is the stored one — that overwrite lands in the cache entry
itself, while the entry's timestamp, every other stored field, and every
other key's entry stay unchanged. -/
theorem c9_hit_overwrites_stored_response_time (env : PipelineEnv)
    (st : EngineState) (q : String) (page pageSize : Int) (tS tE : Nat)
    (e : CEntry Response)
    (hfind : dictFind st.cache.cache q = some e)
    (hfresh : tS - e.timestamp < st.cache.ttl) :
    processQuery env st q true page pageSize tS tE =
      ({ e.data with response_time := tE - tS },
       { st with cache := { st.cache with
           cache := dictSetData st.cache.cache q
             { e.data with response_time := tE - tS } } })
    ∧ ∀ k, k ≠ q →
        dictFind (dictSetData st.cache.cache q
            { e.data with response_time := tE - tS }) k
          = dictFind st.cache.cache k := by
  constructor
  · simp [processQuery, QueryCache.get, hfind, hfresh]
  · intro k hk
    exact dictFind_dictSetData_ne st.cache.cache q k _ hk

/-- A concrete stored response used by the cache-hit witnesses. -/
def sampleResponse : Response :=
  { results :=
      { sql_data := [[("name", "Aarav Sharma")]], document_data := [],
        sql_count := 1, document_count := 0, total_count := 1,
        generated_sql := some "SELECT * FROM employees LIMIT 10" },
    query_type := "sql", response_time := 7, cache_hit := false,
    sources := ["database"], generated_sql := some "SELECT * FROM employees LIMIT 10" }

/-- An engine state with one fresh cache entry under key `q`. -/
def hitState : EngineState :=
  { cache := { cache := [("q", ⟨sampleResponse, 1⟩)], ttl := 300, max_size := 100 },
    query_history := [] }

/-- Witness for C9 at `hitState`. -/
theorem c9_hit_overwrites_stored_response_time_witness :
    dictFind hitState.cache.cache "q" = some ⟨sampleResponse, 1⟩
    ∧ 2 - 1 < hitState.cache.ttl
    ∧ (processQuery sampleEnv hitState "q" true 1 25 2 5 =
        ({ sampleResponse with response_time := 5 - 2 },
         { hitState with cache := { hitState.cache with
             cache := dictSetData hitState.cache.cache "q"
               { sampleResponse with response_time := 5 - 2 } } })
      ∧ ∀ k, k ≠ "q" →
          dictFind (dictSetData hitState.cache.cache "q"
              { sampleResponse with response_time := 5 - 2 }) k
            = dictFind hitState.cache.cache k) :=
  ⟨rfl, by decide,
    c9_hit_overwrites_stored_response_time sampleEnv hitState "q" 1 25 2 5
      ⟨sampleResponse, 1⟩ rfl (by decide)⟩

/-- C9 counterexample at a concrete two-call run: the first (miss) call
stores `response_time = 1`; the second call's cache hit rewrites the stored
entry's `response_time` to `3`, so a hit does not leave the stored entry
unchanged. -/
theorem c9_counterexample_stored_entry_mutated :
    (dictFind (processQuery sampleEnv EngineState.init "q" true 1 25 0 1).2.cache.cache
        "q").map (fun e => e.data.response_time) = some 1
    ∧ (dictFind (processQuery sampleEnv
          (processQuery sampleEnv EngineState.init "q" true 1 25 0 1).2
          "q" true 1 25 2 5).2.cache.cache "q").map
        (fun e => e.data.response_time) = some 3 :=
  ⟨rfl, rfl⟩

/-- Claim C1 (code bug, evaluated at the failing input): issuing the same
question twice with `use_cache=true` within the TTL returns the stored
response on the second call — its `results` are identical to the first
call's and its `response_time` is recomputed — but `cache_hit` is still
`false`, because the hit path never sets the stored flag to `true`. -/
theorem c1_second_call_keeps_cache_hit_false :
    (processQuery sampleEnv
        (processQuery sampleEnv EngineState.init "how many employees" true 1 25 0 1).2
        "how many employees" true 1 25 2 3).1.cache_hit = false
    ∧ (processQuery sampleEnv
        (processQuery sampleEnv EngineState.init "how many employees" true 1 25 0 1).2
        "how many employees" true 1 25 2 3).1.results
      = (processQuery sampleEnv EngineState.init "how many employees" true 1 25 0 1).1.results
    ∧ (processQuery sampleEnv
        (processQuery sampleEnv EngineState.init "how many employees" true 1 25 0 1).2
        "how many employees" true 1 25 2 3).1.response_time = 1 :=
  ⟨rfl, rfl, rfl⟩

/-- On a cache miss — `use_cache=false`, no entry, or an expired entry — the
returned response is the one computed by the pipeline run, independent of
the cache state. -/
theorem processQuery_fst_of_miss (env : PipelineEnv) (st : EngineState)
    (q : String) (useCache : Bool) (page pageSize : Int) (tS tE : Nat)
    (hmiss : useCache = false ∨ (st.cache.get q tS).1 = none) :
    (processQuery env st q useCache page pageSize tS tE).1
      = (processQuery env st q false page pageSize tS tE).1 := by
  rcases hmiss with h | h
  · rw [h]
  · cases useCache
    · rfl
    · rcases hg : st.cache.get q tS with ⟨o, c2⟩
      rw [hg] at h
      simp only at h
      subst h
      simp [processQuery, hg]

/-- Claim C2: whenever the cache is bypassed or misses, `process_query` runs
both pipelines regardless of the question's wording — the response carries
the document hits and the full structured count for every question — and
classifies `query_type` as `hybrid`/`sql`/`document` from which result sets
are non-empty. -/
theorem c2_miss_runs_both_pipelines (env : PipelineEnv) (st : EngineState)
    (q : String) (useCache : Bool) (page pageSize : Int) (tS tE : Nat)
    (r : Response) (hr : r = (processQuery env st q useCache page pageSize tS tE).1)
    (hmiss : useCache = false ∨ (st.cache.get q tS).1 = none) :
    r.results.document_data = env.docFor q
    ∧ r.results.sql_count = (env.sqlFor q).data.length
    ∧ r.results.document_count = (env.docFor q).length
    ∧ ((env.sqlFor q).data ≠ [] → env.docFor q ≠ [] → r.query_type = "hybrid")
    ∧ ((env.sqlFor q).data ≠ [] → env.docFor q = [] → r.query_type = "sql")
    ∧ ((env.sqlFor q).data = [] → env.docFor q ≠ [] → r.query_type = "document") := by
  have hrf : r = (processQuery env st q false page pageSize tS tE).1 :=
    hr.trans (processQuery_fst_of_miss env st q useCache page pageSize tS tE hmiss)
  rw [hrf]
  refine ⟨rfl, rfl, rfl, ?_, ?_, ?_⟩
  · intro hs hd
    have hs' : (env.sqlFor q).data.length ≠ 0 := fun h0 => hs (List.length_eq_zero.mp h0)
    have hd' : (env.docFor q).length ≠ 0 := fun h0 => hd (List.length_eq_zero.mp h0)
    simp [processQuery, hs', hd']
  · intro hs hd
    have hs' : (env.sqlFor q).data.length ≠ 0 := fun h0 => hs (List.length_eq_zero.mp h0)
    have hd0 : (env.docFor q).length = 0 := by rw [hd]; rfl
    simp [processQuery, hs', hd0]
  · intro hs hd
    have hs0 : (env.sqlFor q).data.length = 0 := by rw [hs]; rfl
    have hd' : (env.docFor q).length ≠ 0 := fun h0 => hd (List.length_eq_zero.mp h0)
    simp [processQuery, hs0, hd']

/-- Witness for C2 with caching disabled: one structured row and no document
hits classify the response as `sql`. -/
theorem c2_miss_runs_both_pipelines_witness :
    (false = false ∨ ((EngineState.init).cache.get "list things" 0).1 = none)
    ∧ ((processQuery sampleEnv EngineState.init "list things" false 1 25 0 1).1.results.document_data
        = sampleEnv.docFor "list things"
      ∧ (processQuery sampleEnv EngineState.init "list things" false 1 25 0 1).1.results.sql_count
        = (sampleEnv.sqlFor "list things").data.length
      ∧ (processQuery sampleEnv EngineState.init "list things" false 1 25 0 1).1.results.document_count
        = (sampleEnv.docFor "list things").length
      ∧ ((sampleEnv.sqlFor "list things").data ≠ [] → sampleEnv.docFor "list things" ≠ [] →
          (processQuery sampleEnv EngineState.init "list things" false 1 25 0 1).1.query_type = "hybrid")
      ∧ ((sampleEnv.sqlFor "list things").data ≠ [] → sampleEnv.docFor "list things" = [] →
          (processQuery sampleEnv EngineState.init "list things" false 1 25 0 1).1.query_type = "sql")
      ∧ ((sampleEnv.sqlFor "list things").data = [] → sampleEnv.docFor "list things" ≠ [] →
          (processQuery sampleEnv EngineState.init "list things" false 1 25 0 1).1.query_type = "document")) :=
  ⟨Or.inl rfl,
    c2_miss_runs_both_pipelines sampleEnv EngineState.init "list things" false 1 25 0 1
      _ rfl (Or.inl rfl)⟩

/-- The query type the fuser computes for a question on a miss — a function
of the pipeline outcomes only. -/
def missQueryType (env : PipelineEnv) (q : String) : String :=
  (processQuery env EngineState.init q false 1 25 0 0).1.query_type

/-- Processing a batch of questions appends one record per question, in
arrival order, with no truncation. -/
theorem processMany_history (env : PipelineEnv) :
    ∀ (qs : List String) (st : EngineState),
      (processMany env st qs).query_history
        = st.query_history ++ qs.map (fun q => ⟨q, 0, 0, missQueryType env q⟩) := by
  intro qs
  induction qs with
  | nil =>
      intro st
      simp [processMany]
  | cons q rest ih =>
      intro st
      rw [show processMany env st (q :: rest)
          = processMany env (processQuery env st q false 1 25 0 0).2 rest from rfl]
      rw [ih]
      rw [show (processQuery env st q false 1 25 0 0).2.query_history
          = st.query_history ++ [⟨q, 0, 0, missQueryType env q⟩] from rfl]
      simp

/-- Claim C8 (amended): the app engine's query history is append-only and
complete — after any sequence of (non-cached) processed queries it holds one
record per query in arrival order, and is never truncated; the bound of 100
exists only in the unused services-variant engine. -/
theorem c8_history_append_only_untruncated (env : PipelineEnv) (qs : List String) :
    (processMany env EngineState.init qs).query_history
      = qs.map (fun q => ⟨q, 0, 0, missQueryType env q⟩) := by
  rw [processMany_history]
  rfl

/-- C8 counterexample: after 101 processed queries the history holds 101
records, exceeding the claimed bound of 100. -/
theorem c8_counterexample_history_exceeds_bound :
    100 < (processMany sampleEnv EngineState.init
        (List.replicate 101 "q")).query_history.length := by
  rw [processMany_history sampleEnv (List.replicate 101 "q") EngineState.init]
  simp
